import Mathlib

/-!
Verification development for the Excel billing-validation tool (app.py).

The Python source is shallowly embedded: worksheets become functions from
1-based (row, column) coordinates to optional cell values, cell mutations
become explicit write lists, and the string-manipulation helpers of the
source (substring test, replace, split, strip, upper) are re-implemented
over lists of characters with Python semantics.  All definitions are
structurally recursive so that concrete instances evaluate by kernel
reduction.
-/

/-! ## Character classes and Python-style string primitives -/

/-- ASCII decimal digit test, the class matched by the regex fragment
backslash-d in `atualizar_formula_linha` (for the ASCII inputs used here). -/
def isDigit09 (c : Char) : Bool := '0' ≤ c && c ≤ '9'

/-- ASCII upper-case letter test, the class `[A-Z]` of the same regex. -/
def isUpperAZ (c : Char) : Bool := 'A' ≤ c && c ≤ 'Z'

/-- Decimal digit character for a digit value (values above 9 are clamped,
they never occur at call sites). -/
def digitChar09 : Nat → Char
  | 0 => '0' | 1 => '1' | 2 => '2' | 3 => '3' | 4 => '4'
  | 5 => '5' | 6 => '6' | 7 => '7' | 8 => '8' | _ => '9'

/-- Fuel-driven decimal rendering of a natural number, least significant
digit accumulated first.  `fuel` is always at least the digit count. -/
def natToDigitsAux : Nat → Nat → List Char → List Char
  | 0, n, acc => digitChar09 n :: acc
  | fuel + 1, n, acc =>
    if n < 10 then digitChar09 n :: acc
    else natToDigitsAux fuel (n / 10) (digitChar09 (n % 10) :: acc)

/-- Decimal digits of a natural number, the model of Python `str(n)` for a
non-negative row number. -/
def natToDigits (n : Nat) : List Char := natToDigitsAux n n []

/-- Decimal string of a natural number. -/
def natStr (n : Nat) : String := ⟨natToDigits n⟩

/-- Python `pat in s` substring test, over character lists. -/
def pyContainsL (s pat : List Char) : Bool :=
  match s with
  | [] => pat.isEmpty
  | _ :: rest => pat.isPrefixOf s || pyContainsL rest pat

/-- Python `pat in s` substring test on strings. -/
def pyContains (s pat : String) : Bool := pyContainsL s.toList pat.toList

/-- Fuel-driven core of Python `str.replace`: leftmost, non-overlapping
replacement of every occurrence.  The fuel is the length of the scanned
list; a match consumes at least one character, so the fuel never runs out
for a non-empty pattern. -/
def replFuel (pat rep : List Char) : Nat → List Char → List Char
  | 0, s => s
  | _ + 1, [] => []
  | fuel + 1, c :: rest =>
    if pat.isPrefixOf (c :: rest) then rep ++ replFuel pat rep fuel ((c :: rest).drop pat.length)
    else c :: replFuel pat rep fuel rest

/-- Python `s.replace(pat, rep)` over character lists, including the
empty-pattern behaviour (insertion around every character). -/
def pyReplaceL (s pat rep : List Char) : List Char :=
  match pat with
  | [] => rep ++ s.flatMap (fun c => [c] ++ rep)
  | _ :: _ => replFuel pat rep s.length s

/-- Python `s.replace(pat, rep)` on strings. -/
def pyReplace (s pat rep : String) : String := ⟨pyReplaceL s.toList pat.toList rep.toList⟩

/-- Python `s.startswith(pre)`. -/
def pyStartsWith (s pre : String) : Bool := pre.toList.isPrefixOf s.toList

/-- Python whitespace class used by `str.strip()`. -/
def isSpacePy (c : Char) : Bool :=
  c = ' ' || c = '\t' || c = '\n' || c = '\r' || c = '\x0b' || c = '\x0c'

/-- Python `s.strip()` over character lists. -/
def pyStripL (s : List Char) : List Char :=
  ((s.dropWhile isSpacePy).reverse.dropWhile isSpacePy).reverse

/-- Python `s.strip()` on strings. -/
def pyStrip (s : String) : String := ⟨pyStripL s.toList⟩

/-- Python `s.upper()` (ASCII behaviour, sufficient for the month labels
handled by the source). -/
def pyUpper (s : String) : String := ⟨s.toList.map Char.toUpper⟩

/-- Python `s.endswith(suf)`. -/
def pyEndsWith (s suf : String) : Bool := suf.toList.isSuffixOf s.toList

/-! ## Row-token substitution: `atualizar_formula_linha`

The source applies `re.sub(r'([A-Z]+)(\d+)', ...)`, forcing every digit run
that immediately follows an upper-case letter run to the new row number.
The state machine below is the regex: state 1 means the previous character
was an upper-case letter, state 2 means we are inside a digit run that has
just been replaced and its remaining digits must be dropped. -/

/-- One left-to-right pass of the row-substitution regex.  `st = 1` after a
letter, `st = 2` while skipping the tail of a replaced digit run. -/
def subTokensGo (n : Nat) : Nat → List Char → List Char
  | _, [] => []
  | st, c :: rest =>
    if isUpperAZ c = true then c :: subTokensGo n 1 rest
    else if isDigit09 c = true then
      match st with
      | 1 => natToDigits n ++ subTokensGo n 2 rest
      | 2 => subTokensGo n 2 rest
      | _ => c :: subTokensGo n 0 rest
    else c :: subTokensGo n 0 rest

/-- `atualizar_formula_linha(formula, linha_nova)` from the source: rewrite
every `LETTERS||DIGITS` cell-reference token of the formula to carry the new
row number. -/
def atualizarFormulaLinha (formula : String) (linhaNova : Nat) : String :=
  ⟨subTokensGo linhaNova 0 formula.toList⟩

/-! ## Worksheet model -/

/-- A worksheet restricted to what the embedded functions read: a map from
1-based (row, column) to an optional cell value, plus the advisory
`max_row`. -/
structure Planilha (V : Type) where
  cell : Nat → Nat → Option V
  maxRow : Nat

/-- A value written into a cell: either a value copied from a source cell
(possibly empty) or a formula string. -/
inductive Escrita (V : Type) where
  | valor : Option V → Escrita V
  | formula : String → Escrita V
  deriving DecidableEq

/-! ## Ledger appender: `copiar_producao_para_base` -/

/-- The first scan of `copiar_producao_para_base`: the last row whose
column A holds a value, scanning rows 1..max_row (0 when none do).  The
Python loop keeps overwriting its accumulator, so the final value is the
largest such row. -/
def lastRowColA {V : Type} (ws : Planilha V) : Nat :=
  (List.range' 1 ws.maxRow).foldl (fun acc r => if (ws.cell r 1).isSome then r else acc) 0

/-- The style-template row of `copiar_producao_para_base`
(`last_row_base`, bumped to 1 when the sheet is empty). -/
def linhaMoldePB {V : Type} (ws : Planilha V) : Nat :=
  if lastRowColA ws = 0 then 1 else lastRowColA ws

/-- The eleven value writes of one appended ledger row: source columns 1-7
verbatim into 1-7, the injected `=F` formula into 8, source columns 8-10
into 9-11. -/
def rowWritesPB {V : Type} (src : Planilha V) (sr nr : Nat) : List (Nat × Nat × Escrita V) :=
  [(nr, 1, Escrita.valor (src.cell sr 1)),
   (nr, 2, Escrita.valor (src.cell sr 2)),
   (nr, 3, Escrita.valor (src.cell sr 3)),
   (nr, 4, Escrita.valor (src.cell sr 4)),
   (nr, 5, Escrita.valor (src.cell sr 5)),
   (nr, 6, Escrita.valor (src.cell sr 6)),
   (nr, 7, Escrita.valor (src.cell sr 7)),
   (nr, 8, Escrita.formula ("=F" ++ natStr nr)),
   (nr, 9, Escrita.valor (src.cell sr 8)),
   (nr, 10, Escrita.valor (src.cell sr 9)),
   (nr, 11, Escrita.valor (src.cell sr 10))]

/-- The style copies of one appended row: every written cell takes the
style of the template row in the same column, and only when a template data
row exists (`last_row_base > 1`).  Triples are (template row, written row,
column). -/
def stylesPB (lrb nr : Nat) : List (Nat × Nat × Nat) :=
  if 1 < lrb then
    [(lrb, nr, 1), (lrb, nr, 2), (lrb, nr, 3), (lrb, nr, 4), (lrb, nr, 5), (lrb, nr, 6),
     (lrb, nr, 7), (lrb, nr, 8), (lrb, nr, 9), (lrb, nr, 10), (lrb, nr, 11)]
  else []

/-- The append loop of `copiar_producao_para_base`: source rows from `sr`
while column A is populated, written to consecutive destination rows from
`nr`.  Fuel is the remaining source-row count. -/
def copyRowsPB {V : Type} (src : Planilha V) (lrb : Nat) :
    Nat → Nat → Nat → List (Nat × Nat × Escrita V) × List (Nat × Nat × Nat) × Nat
  | _, _, 0 => ([], [], 0)
  | sr, nr, fuel + 1 =>
    match src.cell sr 1 with
    | none => ([], [], 0)
    | some _ =>
      let rest := copyRowsPB src lrb (sr + 1) (nr + 1) fuel
      (rowWritesPB src sr nr ++ rest.1, stylesPB lrb nr ++ rest.2.1, rest.2.2 + 1)

/-- `copiar_producao_para_base(ws_origem, ws_destino)`: value writes, style
copies, and the number of copied rows.  Source rows run from 2 to
`max_row`; the first destination row is the template row plus one. -/
def copiarProducaoParaBase {V : Type} (src dest : Planilha V) :
    List (Nat × Nat × Escrita V) × List (Nat × Nat × Nat) × Nat :=
  copyRowsPB src (linhaMoldePB dest) 2 (linhaMoldePB dest + 1) (src.maxRow - 1)

/-- The writes landing in a given destination row, in program order. -/
def rowWritesOf {V : Type} (ws : List (Nat × Nat × Escrita V)) (r : Nat) :
    List (Nat × Nat × Escrita V) :=
  ws.filter (fun w => w.1 = r)

/-! ## Template cloner (main flow, ETAPA 3)

The main flow deletes a pre-existing sheet named `target_month`, then
copies the `JAN.26` template (openpyxl appends the copy at the end of the
workbook) and renames the copy to `target_month`.  At the level of sheet
names, with openpyxl guaranteeing name uniqueness, this is: -/

/-- Sheet-name effect of ETAPA 3: delete the target sheet when present,
then append the renamed clone of the template. -/
def cloneTemplateStep (sheets : List String) (target : String) : List String :=
  (if target ∈ sheets then sheets.erase target else sheets) ++ [target]

/-! ## Month columns of the BASE sheet

`encontrar_colunas_meses` and `inserir_coluna_mes` only read and change
the header row of BASE (the per-row COUNTIF writes of the inserter touch
rows ≥ 2 only, never row 1), so they are embedded over the header row: a
map from 1-based column index to the optional header value plus the
advisory `max_column`. -/

/-- The header row of a worksheet. -/
structure PlanilhaCols where
  hdr : Nat → Option String
  maxCol : Nat

/-- Linear scan of `encontrar_coluna_por_header`, from column `c` with
`fuel` columns left to inspect. -/
def encontrarColunaAux (hdr : Nat → Option String) (nome : String) : Nat → Nat → Option Nat
  | _, 0 => none
  | c, fuel + 1 =>
    if hdr c = some nome then some c else encontrarColunaAux hdr nome (c + 1) fuel

/-- `encontrar_coluna_por_header(ws, nome)`: the first column in
1..max_column whose row-1 header equals `nome` exactly. -/
def encontrarColunaPorHeader (ws : PlanilhaCols) (nome : String) : Option Nat :=
  encontrarColunaAux ws.hdr nome 1 ws.maxCol

/-- `encontrar_colunas_meses(ws_base)`: every column strictly between
column P (16) and the dynamically located DATA column (exclusive; defaults
to max_column + 1 when no DATA header exists) that has a non-empty header,
as (name, index) pairs in left-to-right order. -/
def encontrarColunasMeses (ws : PlanilhaCols) : List (String × Nat) :=
  let colData :=
    match encontrarColunaPorHeader ws "DATA" with
    | some d => d
    | none => ws.maxCol + 1
  (List.range' 17 (colData - 17)).filterMap (fun c => (ws.hdr c).map (fun h => (h, c)))

/-- openpyxl `insert_cols(pos)` restricted to the header row: columns at or
after `pos` shift one place right, the new column starts empty. -/
def insertCols (ws : PlanilhaCols) (pos : Nat) : PlanilhaCols :=
  ⟨fun c => if c < pos then ws.hdr c else if c = pos then none else ws.hdr (c - 1),
   ws.maxCol + 1⟩

/-- Write a header value at a column. -/
def setHdr (ws : PlanilhaCols) (pos : Nat) (v : String) : PlanilhaCols :=
  ⟨fun c => if c = pos then some v else ws.hdr c, ws.maxCol⟩

/-- `inserir_coluna_mes(ws_base, target_month, colunas_meses)`: insert a
fresh column one past the last existing month column (or at 17 = Q when
none exist) and write the target-month label as its header.  There is no
check of whether `target_month` already occurs among the existing month
headers.  The per-data-row COUNTIF writes affect rows ≥ 2 only and are not
part of the header state. -/
def inserirColunaMes (ws : PlanilhaCols) (target : String) (colunasMeses : List (String × Nat)) :
    PlanilhaCols × (String × Nat) :=
  let pos :=
    match colunasMeses.getLast? with
    | some ult => ult.2 + 1
    | none => 17
  (setHdr (insertCols ws pos) pos target, (target, pos))

/-! ## Cross-sheet formula rewriter: `aplicar_formulas_dinamicas`

The three template-preparation blocks for BASE columns L (paid flag,
OR-chain), M (payment date, IFERROR chain) and N (instalment count, sum of
COUNTIFs) are embedded one-to-one, then the mass application loop rewrites
rows 2..last by replacing the `A2` anchor of each template with the row
number. -/

/-- The insertion marker of the column-L OR-chain. -/
def marcadorL : String := "),\"Sim\""

/-- The new OR-chain term spliced in for a month sheet. -/
def novoTrechoL (mes : String) : String :=
  ",NOT(ISERROR(VLOOKUP(A2,'" ++ mes ++ "'!A:A,1,0)))"

/-- The from-scratch column-L formula used when the template cell is empty. -/
def formulaLZero (mes : String) : String :=
  "=IF(OR(NOT(ISERROR(VLOOKUP(A2,'" ++ mes ++ "'!A:A,1,0)))),\"Sim\",\"Não\")"

/-- Template preparation for BASE column L (source lines 942-958):
normalise `;` to `,`, create from scratch when the cell is not a formula,
extend the OR-chain at the `),"Sim"` marker only when the month-sheet name
is not already present in the string. -/
def extendFormulaL (formulaBase mes : String) : String :=
  let limpa := pyReplace formulaBase ";" ","
  if pyStartsWith limpa "=" = false then formulaLZero mes
  else if pyContains limpa mes = false then
    if pyContains limpa marcadorL = true then
      pyReplace limpa marcadorL (novoTrechoL mes ++ marcadorL)
    else limpa
  else limpa

/-- The insertion marker of the column-M IFERROR chain. -/
def marcadorM : String := "\"Pendente de pagamento\""

/-- The new IFERROR wrapper spliced in for a month sheet. -/
def trechoNovoM (mes : String) : String :=
  "IFERROR(VLOOKUP(A2,'" ++ mes ++ "'!A:N,14,0), "

/-- Template preparation for BASE column M (source lines 963-978): same
normalisation; splice one more IFERROR level before the terminal
`"Pendente de pagamento"` literal and close with one more parenthesis,
only when the month-sheet name is not already present. -/
def extendFormulaM (formulaBase mes : String) : String :=
  let limpa := pyReplace formulaBase ";" ","
  let nova := if pyStartsWith limpa "=" = false then "=\"Pendente de pagamento\"" else limpa
  if pyContains limpa mes = false then
    if pyContains limpa marcadorM = true then
      pyReplace limpa marcadorM (trechoNovoM mes ++ marcadorM) ++ ")"
    else nova
  else nova

/-- Template preparation for BASE column N (source lines 983-998): append
one more `+COUNTIF` term when the month-sheet name is not already present. -/
def extendFormulaN (formulaBase mes : String) : String :=
  let limpa := pyReplace formulaBase ";" ","
  if pyStartsWith limpa "=" = false then "=COUNTIF('" ++ mes ++ "'!A:A,BASE!A2)"
  else if pyContains limpa mes = false then
    limpa ++ ("+COUNTIF('" ++ mes ++ "'!A:A,BASE!A2)")
  else limpa

/-- The canonical shape of the column-L OR-chain over a list of month-sheet
names, used to state chain-extension properties. -/
def termoChainL (mes : String) : String :=
  "NOT(ISERROR(VLOOKUP(A2,'" ++ mes ++ "'!A:A,1,0)))"

/-- OR-chain formula carrying one term per month sheet, in order. -/
def chainL (meses : List String) : String :=
  "=IF(OR(" ++ String.intercalate "," (meses.map termoChainL) ++ "),\"Sim\",\"Não\")"

/-- The last-populated-row scan at the top of `aplicar_formulas_dinamicas`:
start at `max_row` and walk up while the row is above 1 and its column A is
empty. -/
def ultimaLinhaDesc (ws : Planilha String) : Nat → Nat
  | 0 => 0
  | r + 1 =>
    if 2 ≤ r + 1 ∧ ws.cell (r + 1) 1 = none then ultimaLinhaDesc ws r else r + 1

/-- Python `str(cell.value) if cell.value else ""` for a template cell. -/
def cellStr (ws : Planilha String) (r c : Nat) : String :=
  match ws.cell r c with
  | some v => v
  | none => ""

/-- `aplicar_formulas_dinamicas(ws_base, colunas_meses, base_wb)`: rows
processed, value writes (row, column, formula) and style copies
(source row, destination row, column).  The guard returns zero immediately
when the data range is empty or no month columns exist; the Python body
contains no raise statement, so the embedding's error component is never
used. -/
def aplicarFormulasDinamicas (wsBase : Planilha String) (colunasMeses : List (String × Nat)) :
    Except String (Nat × List (Nat × Nat × String) × List (Nat × Nat × Nat)) :=
  let ultima := ultimaLinhaDesc wsBase wsBase.maxRow
  if ultima < 2 ∨ colunasMeses = [] then Except.ok (0, [], [])
  else
    match colunasMeses.getLast? with
    | none => Except.ok (0, [], [])
    | some ult =>
      let mes := ult.1
      let fL := extendFormulaL (cellStr wsBase 2 12) mes
      let fM := extendFormulaM (cellStr wsBase 2 13) mes
      let fN := extendFormulaN (cellStr wsBase 2 14) mes
      let linhas := List.range' 2 (ultima - 1)
      Except.ok (ultima - 1,
        linhas.flatMap (fun row =>
          [(row, 12, pyReplace fL "A2" ("A" ++ natStr row)),
           (row, 13, pyReplace fM "A2" ("A" ++ natStr row)),
           (row, 14, pyReplace fN "A2" ("A" ++ natStr row))]),
        linhas.flatMap (fun row =>
          if 2 < row then [(row - 1, row, 12), (row - 1, row, 13), (row - 1, row, 14)]
          else []))

/-! ## Month-sheet rules N-X: unique CCBs (`aplicar_regras_colunas_n_x`) -/

/-- The contiguous column-A segment read by `aplicar_regras_colunas_n_x`:
`ultima_linha` is found by walking from `linha_inicio` and stopping at the
first empty column-A cell, so the collected CCB values are the column-A
values of that contiguous block.  `fuel` counts the rows up to `max_row`. -/
def colASegment {V : Type} (colA : Nat → Option V) : Nat → Nat → List V
  | _, 0 => []
  | r, fuel + 1 =>
    match colA r with
    | none => []
    | some v => v :: colASegment colA (r + 1) fuel

/-- The first-occurrence de-duplication loop of the source (`vistos` set,
`ccbs_unicos` list): keep each value the first time it is seen. -/
def dedupFirstAux {V : Type} [DecidableEq V] : List V → List V → List V
  | _, [] => []
  | vistos, c :: rest =>
    if c ∈ vistos then dedupFirstAux vistos rest
    else c :: dedupFirstAux (c :: vistos) rest

/-- `ccbs_unicos`: unique column-A values in first-occurrence order. -/
def ccbsUnicos {V : Type} [DecidableEq V] (l : List V) : List V := dedupFirstAux [] l

/-- The eight writes of MOMENTO B for one unique CCB at one destination
row: the CCB into column Q (17), the three lookup formulas into R-T, and
empty values into U-X. -/
def momentoBRow {V : Type} (r : Nat) (ccb : V) : List (Nat × Nat × Escrita V) :=
  [(r, 17, Escrita.valor (some ccb)),
   (r, 18, Escrita.formula ("=VLOOKUP(Q" ++ natStr r ++ ",'BASE'!A:K,11,0)")),
   (r, 19, Escrita.formula ("=SUMIF(A:A,Q" ++ natStr r ++ ",L:L)")),
   (r, 20, Escrita.formula ("=VLOOKUP(Q" ++ natStr r ++ ",'BASE'!A:H,8,0)")),
   (r, 21, Escrita.valor none), (r, 22, Escrita.valor none),
   (r, 23, Escrita.valor none), (r, 24, Escrita.valor none)]

/-- The MOMENTO B loop: one Q-X row per unique CCB, at consecutive
destination rows. -/
def momentoBAux {V : Type} : Nat → List V → List (Nat × Nat × Escrita V)
  | _, [] => []
  | r, ccb :: rest => momentoBRow r ccb ++ momentoBAux (r + 1) rest

/-- MOMENTO B of `aplicar_regras_colunas_n_x`: de-duplicate the collected
column-A values, then write one Q-X row per unique CCB starting at
`linha_inicio`. -/
def aplicarRegrasMomentoB {V : Type} [DecidableEq V] (ccbsTodos : List V) (linhaInicio : Nat) :
    List (Nat × Nat × Escrita V) :=
  momentoBAux linhaInicio (ccbsUnicos ccbsTodos)

/-! ## RESUMO billing-cycle window: `atualizar_resumo_ciclo_pmt` -/

/-- The month-abbreviation table of the source. -/
def mesesEng : List (String × Nat) :=
  [("JAN", 1), ("FEV", 2), ("MAR", 3), ("ABR", 4), ("MAI", 5), ("JUN", 6),
   ("JUL", 7), ("AGO", 8), ("SET", 9), ("OUT", 10), ("NOV", 11), ("DEZ", 12)]

/-- Python `s.split('.')`, accumulator-based. -/
def splitDotsAux (acc : List Char) : List Char → List (List Char)
  | [] => [acc.reverse]
  | c :: rest =>
    if c = '.' then acc.reverse :: splitDotsAux [] rest else splitDotsAux (c :: acc) rest

/-- Python `s.split('.')` over character lists. -/
def splitDots (s : List Char) : List (List Char) := splitDotsAux [] s

/-- Digit-string accumulator for `int(s)`. -/
def parseNatDigitsAux (acc : Nat) : List Char → Option Nat
  | [] => some acc
  | c :: rest =>
    if isDigit09 c = true then parseNatDigitsAux (acc * 10 + (c.toNat - 48)) rest else none

/-- `int(s)` for the plain digit strings produced by the month labels
(no sign, no surrounding space). -/
def parseNatDigits : List Char → Option Nat
  | [] => none
  | c :: rest => parseNatDigitsAux 0 (c :: rest)

/-- The label parsing shared by `atualizar_resumo_ciclo_pmt` (source lines
257-263): upper-case, strip, split on the dot, look the first part up in
the month table and add 2000 to the two-digit year.  Failures of the table
lookup or of `int` become `none`. -/
def parseTargetMonth (s : String) : Option (Nat × Nat) :=
  match splitDots (pyStripL ((pyUpper s).toList)) with
  | a :: b :: _ =>
    match List.lookup (⟨a⟩ : String) mesesEng, parseNatDigits b with
    | some m, some yy => some (2000 + yy, m)
    | _, _ => none
  | _ => none

/-- Zero-based month index of a (year, month) pair; calendar arithmetic
with year rollover is addition and subtraction on this index. -/
def mesIndex (ano mes : Nat) : Nat := ano * 12 + (mes - 1)

/-- The date window computed by `atualizar_resumo_ciclo_pmt` (source lines
265-271): subtract 4 calendar months from the first day of the target
month (`relativedelta(months=4)` on day 1 is exact month arithmetic), take
day 23 of that month as the window start, and day 20 of the following
month as the window end.  Returns ((year, month, day), (year, month, day)). -/
def cicloPmtJanela (target : String) : Option ((Nat × Nat × Nat) × (Nat × Nat × Nat)) :=
  match parseTargetMonth target with
  | none => none
  | some (ano, mes) =>
    let idx := mesIndex ano mes - 4
    let idx2 := mesIndex (idx / 12) (idx % 12 + 1) + 1
    some (((idx / 12), (idx % 12 + 1), 23), ((idx2 / 12), (idx2 % 12 + 1), 20))

/-! ## Delinquency set difference

Modelled from the spec: the delinquency-cycle processor of later revisions
of this repository (spec section 4.8, steps 4-5) is not present in
src/app.py, whose `filtrar_inadimplentes` only filters month-sheet rows by
a literal VALIDAÇÃO == "Não" value.  The set-difference stage is therefore
modelled from the spec wording: normalise column Q and the cohort ids
(trim, strip a trailing ".0" artifact), de-duplicate the cohort by first
occurrence, and flag the cohort ids absent from column Q. -/

/-- Modelled from the spec: normalisation of an account id into comparable
string form (trim, strip a trailing ".0" artifact of numeric-as-string
ids). -/
def normalizeId (s : String) : String :=
  let t := pyStrip s
  if pyEndsWith t ".0" = true then ⟨t.toList.take (t.toList.length - 2)⟩ else t

/-- Modelled from the spec: the delinquency set difference — the cohort
ids, normalised and de-duplicated by first occurrence, that are absent
from the normalised unique-account list of month-sheet column Q. -/
def filtrarInadimplentesCiclo (colQ cohort : List String) : List String :=
  let qNorm := colQ.map normalizeId
  (ccbsUnicos (cohort.map normalizeId)).filter (fun id => !(qNorm.contains id))

/-! ## Token model for row-substitution formulas

The row-substitution claims quantify over formulas made of
letters-then-digits cell-reference tokens; such a formula is rendered from
a list of (letter run, digit run) pairs. -/

/-- Render a token list to the formula text. -/
def tokensRender : List (List Char × List Char) → List Char
  | [] => []
  | (l, d) :: ts => l ++ (d ++ tokensRender ts)

/-- Well-formed token list: every letter run is a non-empty run of
upper-case letters, every digit run a non-empty run of digits. -/
def tokensWF (ts : List (List Char × List Char)) : Prop :=
  ∀ t ∈ ts, t.1 ≠ [] ∧ (∀ c ∈ t.1, isUpperAZ c = true) ∧
    t.2 ≠ [] ∧ (∀ c ∈ t.2, isDigit09 c = true)

instance (ts : List (List Char × List Char)) : Decidable (tokensWF ts) := by
  unfold tokensWF; infer_instance

/-! ## Concrete fixtures used by witnesses and counterexamples -/

/-- A PARTNER Produção sheet with two data rows (2 and 3) in columns 1-10;
cell (r, c) holds the value 10r + c. -/
def producaoW : Planilha Nat :=
  ⟨fun r c => if 2 ≤ r ∧ r ≤ 3 ∧ 1 ≤ c ∧ c ≤ 10 then some (10 * r + c) else none, 3⟩

/-- A BASE ledger with a header row and one pre-existing data row (row 2). -/
def baseLedgerW : Planilha Nat :=
  ⟨fun r c => if r ≤ 2 ∧ c = 1 then some 1 else none, 2⟩

/-- A BASE ledger with a populated header row 1 and no data rows below it. -/
def baseVaziaW : Planilha Nat :=
  ⟨fun r _ => if r = 1 then some 0 else none, 4⟩

/-- A BASE sheet (value view) with three data rows in column A. -/
def baseComDados : Planilha String :=
  ⟨fun r c => if c = 1 ∧ r ≤ 3 then some "id" else none, 3⟩

/-- A BASE header row whose single month column (17) is already headed
`FEV.26`, with the DATA column at 18. -/
def wsBaseDup : PlanilhaCols :=
  ⟨fun c => if c = 17 then some "FEV.26" else if c = 18 then some "DATA" else none, 18⟩

/-- A BASE header row whose single month column (17) is headed `JAN.26`,
with the DATA column at 18. -/
def wsBaseSemDup : PlanilhaCols :=
  ⟨fun c => if c = 17 then some "JAN.26" else if c = 18 then some "DATA" else none, 18⟩

/-- Month-sheet column A holding the values 5, 5, 3, 5, 3, 9 in rows 2-7. -/
def colunaAC8 : Nat → Option Nat :=
  fun r => if 2 ≤ r ∧ r ≤ 7 then some ([5, 5, 3, 5, 3, 9].getD (r - 2) 0) else none

/-- A two-token formula `A2BC34` as a token list. -/
def tokensW : List (List Char × List Char) := [(['A'], ['2']), (['B', 'C'], ['3', '4'])]

/-! ## Shared helper lemmas -/

/-- Filtering distributes over `flatMap`. -/
theorem filter_flatMap_eq {α β : Type} (l : List α) (f : α → List β) (p : β → Bool) :
    (l.flatMap f).filter p = l.flatMap (fun a => (f a).filter p) := by
  induction l with
  | nil => rfl
  | cons a l ih => simp [List.filter_append, ih]

/-- A `flatMap` over `range n` of blocks that vanish except at index `i`
collapses to the block at `i`. -/
theorem flatMap_range_single {β : Type} (L : Nat → List β) (n i : Nat) (hi : i < n) :
    ((List.range n).flatMap fun j => if j = i then L j else []) = L i := by
  induction n with
  | zero => omega
  | succ n ih =>
    rw [List.range_succ, List.flatMap_append]
    by_cases h : i < n
    · rw [ih h]
      have hne : ¬(n = i) := by omega
      simp [hne]
    · have hin : i = n := by omega
      subst hin
      have h1 : ((List.range i).flatMap fun j => if j = i then L j else []) = [] := by
        rw [List.flatMap_eq_nil_iff]
        intro j hj
        rw [List.mem_range] at hj
        exact if_neg (by omega)
      simp [h1]

/-- Structure of the append loop: the value writes and style copies are the
concatenation, over the appended-row count, of the per-row blocks for
source row `sr + i` and destination row `nr + i`. -/
theorem copyRowsPB_struct {V : Type} (src : Planilha V) (lrb : Nat) :
    ∀ (fuel sr nr : Nat),
      (copyRowsPB src lrb sr nr fuel).1 =
        ((List.range (copyRowsPB src lrb sr nr fuel).2.2).flatMap fun i =>
          rowWritesPB src (sr + i) (nr + i)) ∧
      (copyRowsPB src lrb sr nr fuel).2.1 =
        ((List.range (copyRowsPB src lrb sr nr fuel).2.2).flatMap fun i =>
          stylesPB lrb (nr + i)) := by
  intro fuel
  induction fuel with
  | zero => intro sr nr; simp [copyRowsPB]
  | succ fuel ih =>
    intro sr nr
    cases h : src.cell sr 1 with
    | none => simp [copyRowsPB, h]
    | some v =>
      obtain ⟨ih1, ih2⟩ := ih (sr + 1) (nr + 1)
      simp only [copyRowsPB, h]
      constructor
      · rw [ih1, List.range_succ_eq_map, List.flatMap_cons, List.flatMap_map]
        show rowWritesPB src sr nr ++ _ = rowWritesPB src (sr + 0) (nr + 0) ++ _
        have hf : (fun a => rowWritesPB src (sr + Nat.succ a) (nr + Nat.succ a))
            = (fun i => rowWritesPB src (sr + 1 + i) (nr + 1 + i)) := by
          funext i
          have e1 : sr + 1 + i = sr + Nat.succ i := by omega
          have e2 : nr + 1 + i = nr + Nat.succ i := by omega
          rw [e1, e2]
        rw [hf]
        simp
      · rw [ih2, List.range_succ_eq_map, List.flatMap_cons, List.flatMap_map]
        show stylesPB lrb nr ++ _ = stylesPB lrb (nr + 0) ++ _
        have hf : (fun a => stylesPB lrb (nr + Nat.succ a))
            = (fun i => stylesPB lrb (nr + 1 + i)) := by
          funext i
          have e2 : nr + 1 + i = nr + Nat.succ i := by omega
          rw [e2]
        rw [hf]
        simp

/-- Structure of `copiar_producao_para_base`: source rows from 2, destination
rows from the template row plus one. -/
theorem copiarProducaoParaBase_struct {V : Type} (src dest : Planilha V) :
    (copiarProducaoParaBase src dest).1 =
      ((List.range (copiarProducaoParaBase src dest).2.2).flatMap fun i =>
        rowWritesPB src (2 + i) (linhaMoldePB dest + 1 + i)) ∧
    (copiarProducaoParaBase src dest).2.1 =
      ((List.range (copiarProducaoParaBase src dest).2.2).flatMap fun i =>
        stylesPB (linhaMoldePB dest) (linhaMoldePB dest + 1 + i)) := by
  unfold copiarProducaoParaBase
  exact copyRowsPB_struct src (linhaMoldePB dest) (src.maxRow - 1) 2 (linhaMoldePB dest + 1)

/-- Row filter of one per-row write block. -/
theorem rowWritesPB_filter_eq {V : Type} (src : Planilha V) (sr nr r0 : Nat) :
    (rowWritesPB src sr nr).filter (fun w => w.1 = r0) =
      if nr = r0 then rowWritesPB src sr nr else [] := by
  by_cases h : nr = r0 <;> simp [rowWritesPB, h]

/-- C2: for every source row appended by `copiar_producao_para_base`, given
the PARTNER Produção row values in source columns 1-10, the written BASE
row has columns 1-7 equal to the source columns 1-7, column 8 equal to the
formula string `=F` followed by the destination row number (never a value
copied from the source), and columns 9-11 equal to the source columns
8-10. -/
theorem c2_append_column_mapping {V : Type} (src dest : Planilha V) (i : Nat)
    (h : i < (copiarProducaoParaBase src dest).2.2) :
    rowWritesOf (copiarProducaoParaBase src dest).1 (linhaMoldePB dest + 1 + i) =
      [(linhaMoldePB dest + 1 + i, 1, Escrita.valor (src.cell (2 + i) 1)),
       (linhaMoldePB dest + 1 + i, 2, Escrita.valor (src.cell (2 + i) 2)),
       (linhaMoldePB dest + 1 + i, 3, Escrita.valor (src.cell (2 + i) 3)),
       (linhaMoldePB dest + 1 + i, 4, Escrita.valor (src.cell (2 + i) 4)),
       (linhaMoldePB dest + 1 + i, 5, Escrita.valor (src.cell (2 + i) 5)),
       (linhaMoldePB dest + 1 + i, 6, Escrita.valor (src.cell (2 + i) 6)),
       (linhaMoldePB dest + 1 + i, 7, Escrita.valor (src.cell (2 + i) 7)),
       (linhaMoldePB dest + 1 + i, 8, Escrita.formula ("=F" ++ natStr (linhaMoldePB dest + 1 + i))),
       (linhaMoldePB dest + 1 + i, 9, Escrita.valor (src.cell (2 + i) 8)),
       (linhaMoldePB dest + 1 + i, 10, Escrita.valor (src.cell (2 + i) 9)),
       (linhaMoldePB dest + 1 + i, 11, Escrita.valor (src.cell (2 + i) 10))] := by
  have hs := (copiarProducaoParaBase_struct src dest).1
  unfold rowWritesOf
  rw [hs, filter_flatMap_eq]
  have hb : ∀ j, (rowWritesPB src (2 + j) (linhaMoldePB dest + 1 + j)).filter
      (fun w => w.1 = linhaMoldePB dest + 1 + i) =
      if j = i then rowWritesPB src (2 + j) (linhaMoldePB dest + 1 + j) else [] := by
    intro j
    rw [rowWritesPB_filter_eq]
    by_cases hj : j = i
    · rw [if_pos (by omega), if_pos hj]
    · rw [if_neg (by omega), if_neg hj]
  have hfun : (fun j => (rowWritesPB src (2 + j) (linhaMoldePB dest + 1 + j)).filter
      (fun w => w.1 = linhaMoldePB dest + 1 + i)) =
      (fun j => if j = i then rowWritesPB src (2 + j) (linhaMoldePB dest + 1 + j) else []) := by
    funext j; exact hb j
  rw [hfun, flatMap_range_single _ _ i h]
  rfl

/-- C2 witness at a concrete two-row PARTNER sheet and a BASE with one data
row: the first appended row is row 4 of BASE. -/
theorem c2_append_column_mapping_witness :
    0 < (copiarProducaoParaBase producaoW baseLedgerW).2.2 ∧
    rowWritesOf (copiarProducaoParaBase producaoW baseLedgerW).1 (linhaMoldePB baseLedgerW + 1 + 0) =
      [(linhaMoldePB baseLedgerW + 1 + 0, 1, Escrita.valor (producaoW.cell (2 + 0) 1)),
       (linhaMoldePB baseLedgerW + 1 + 0, 2, Escrita.valor (producaoW.cell (2 + 0) 2)),
       (linhaMoldePB baseLedgerW + 1 + 0, 3, Escrita.valor (producaoW.cell (2 + 0) 3)),
       (linhaMoldePB baseLedgerW + 1 + 0, 4, Escrita.valor (producaoW.cell (2 + 0) 4)),
       (linhaMoldePB baseLedgerW + 1 + 0, 5, Escrita.valor (producaoW.cell (2 + 0) 5)),
       (linhaMoldePB baseLedgerW + 1 + 0, 6, Escrita.valor (producaoW.cell (2 + 0) 6)),
       (linhaMoldePB baseLedgerW + 1 + 0, 7, Escrita.valor (producaoW.cell (2 + 0) 7)),
       (linhaMoldePB baseLedgerW + 1 + 0, 8,
         Escrita.formula ("=F" ++ natStr (linhaMoldePB baseLedgerW + 1 + 0))),
       (linhaMoldePB baseLedgerW + 1 + 0, 9, Escrita.valor (producaoW.cell (2 + 0) 8)),
       (linhaMoldePB baseLedgerW + 1 + 0, 10, Escrita.valor (producaoW.cell (2 + 0) 9)),
       (linhaMoldePB baseLedgerW + 1 + 0, 11, Escrita.valor (producaoW.cell (2 + 0) 10))] :=
  ⟨by decide, c2_append_column_mapping producaoW baseLedgerW 0 (by decide)⟩

/-- The column-A scan of the appender stays at or below 1 when no cell of
column A below row 1 is populated. -/
theorem lastRowColA_le_one {V : Type} (ws : Planilha V)
    (h : ∀ r, 2 ≤ r → ws.cell r 1 = none) : lastRowColA ws ≤ 1 := by
  unfold lastRowColA
  have hgen : ∀ (l : List Nat) (acc : Nat), (∀ r ∈ l, 2 ≤ r → ws.cell r 1 = none) → acc ≤ 1 →
      l.foldl (fun acc r => if (ws.cell r 1).isSome then r else acc) acc ≤ 1 := by
    intro l
    induction l with
    | nil => intro acc _ hacc; simpa using hacc
    | cons a l ih =>
      intro acc hmem hacc
      simp only [List.foldl_cons]
      apply ih
      · intro r hr h2; exact hmem r (List.mem_cons_of_mem _ hr) h2
      · by_cases ha : 2 ≤ a
        · rw [hmem a (List.mem_cons_self a l) ha]
          simpa using hacc
        · by_cases hb : (ws.cell a 1).isSome <;> simp [hb] <;> omega
  exact hgen _ 0 (fun r _ h2 => h r h2) (by omega)

/-- C10: when the destination BASE sheet has no populated column-A cell
below row 1, the appender still starts writing at row 2 (the template row
is 1), performs no style copies at all, and every value write lands in a
row at or below row 2. -/
theorem c10_sem_linha_molde {V : Type} (src dest : Planilha V)
    (h : ∀ r, 2 ≤ r → dest.cell r 1 = none) :
    linhaMoldePB dest = 1 ∧
    (copiarProducaoParaBase src dest).2.1 = [] ∧
    ∀ w ∈ (copiarProducaoParaBase src dest).1, 2 ≤ w.1 := by
  have hle := lastRowColA_le_one dest h
  have h1 : linhaMoldePB dest = 1 := by
    unfold linhaMoldePB
    by_cases h0 : lastRowColA dest = 0
    · rw [if_pos h0]
    · rw [if_neg h0]; omega
  refine ⟨h1, ?_, ?_⟩
  · have hs := (copiarProducaoParaBase_struct src dest).2
    rw [hs, List.flatMap_eq_nil_iff]
    intro j _
    rw [h1]
    simp [stylesPB]
  · intro w hw
    have hs := (copiarProducaoParaBase_struct src dest).1
    rw [hs] at hw
    obtain ⟨j, _, hwj⟩ := List.mem_flatMap.mp hw
    have hrow : w.1 = linhaMoldePB dest + 1 + j := by
      simp only [rowWritesPB, List.mem_cons, List.not_mem_nil, or_false] at hwj
      rcases hwj with rfl | rfl | rfl | rfl | rfl | rfl | rfl | rfl | rfl | rfl | rfl <;> rfl
    rw [hrow, h1]
    omega

/-- C10 witness at a header-only BASE ledger. -/
theorem c10_sem_linha_molde_witness :
    (∀ r, 2 ≤ r → baseVaziaW.cell r 1 = none) ∧
    (linhaMoldePB baseVaziaW = 1 ∧
     (copiarProducaoParaBase producaoW baseVaziaW).2.1 = [] ∧
     ∀ w ∈ (copiarProducaoParaBase producaoW baseVaziaW).1, 2 ≤ w.1) :=
  have hp : ∀ r, 2 ≤ r → baseVaziaW.cell r 1 = none := by
    intro r hr
    show (if r = 1 then some 0 else none) = none
    rw [if_neg (by omega)]
  ⟨hp, c10_sem_linha_molde producaoW baseVaziaW hp⟩

/-- C3: the delinquency stage computes a set difference — with month-sheet
column Q holding the unique-account list 100, 200 and a cohort of account
ids 100, 300, 300, the delinquent ids are exactly the single id 300,
appearing once despite the duplicate cohort entry (first-occurrence
de-duplication before the absence check against column Q). -/
theorem c3_delinquency_set_difference :
    filtrarInadimplentesCiclo ["100", "200"] ["100", "300", "300"] = ["300"] := by
  decide

/-- C4 counterexample: with a BASE sheet holding data rows and an empty
month-column list, `aplicar_formulas_dinamicas` does not raise any error —
it returns success with zero processed rows, no writes and no style
copies.  The embedding is total over the guard path; the Python body has
no raise statement, so no `Except.error` value is ever produced. -/
theorem c4_counterexample :
    aplicarFormulasDinamicas baseComDados [] = Except.ok (0, [], []) ∧
    ∀ e, aplicarFormulasDinamicas baseComDados [] ≠ Except.error e := by
  constructor
  · rfl
  · intro e he
    rw [show aplicarFormulasDinamicas baseComDados [] = Except.ok (0, [], []) from rfl] at he
    exact Except.noConfusion he

/-- C4 amended: when the month-column list is empty, the rewriter is a
silent no-op for every BASE sheet — it returns success with zero rows
processed, an empty write list and an empty style list, and never an
error. -/
theorem c4_no_month_columns_silent_noop (ws : Planilha String) :
    aplicarFormulasDinamicas ws [] = Except.ok (0, [], []) := by
  unfold aplicarFormulasDinamicas
  rw [if_pos (Or.inr rfl)]

/-- C5: extending the paid-flag OR-chain with a month-sheet name already
contained in the (separator-normalised) formula string is a no-op — the
result is the normalised formula itself, with no term added; and extending
the two-term chain over JAN.26 and FEV.26 with the new name MAR.26
produces exactly the three-term chain with the MAR.26 term appended last
in the OR argument list. -/
theorem c5_chain_extension (f mes : String)
    (h1 : pyStartsWith (pyReplace f ";" ",") "=" = true)
    (h2 : pyContains (pyReplace f ";" ",") mes = true) :
    extendFormulaL f mes = pyReplace f ";" "," ∧
    extendFormulaL (chainL ["JAN.26", "FEV.26"]) "MAR.26" =
      chainL ["JAN.26", "FEV.26", "MAR.26"] := by
  constructor
  · simp only [extendFormulaL, h1, h2]
    simp
  · decide

set_option maxRecDepth 8192 in
/-- C5 witness: re-extending the three-term chain with MAR.26 again is a
no-op (its name is already contained), discharged at the concrete chain. -/
theorem c5_chain_extension_witness :
    pyStartsWith (pyReplace (chainL ["JAN.26", "FEV.26", "MAR.26"]) ";" ",") "=" = true ∧
    pyContains (pyReplace (chainL ["JAN.26", "FEV.26", "MAR.26"]) ";" ",") "MAR.26" = true ∧
    extendFormulaL (chainL ["JAN.26", "FEV.26", "MAR.26"]) "MAR.26" =
      pyReplace (chainL ["JAN.26", "FEV.26", "MAR.26"]) ";" "," :=
  ⟨by decide, by decide,
   (c5_chain_extension (chainL ["JAN.26", "FEV.26", "MAR.26"]) "MAR.26"
     (by decide) (by decide)).1⟩

/-- C6: for a formula already in the single separator convention (the
normalisation is the identity on it) that starts with `=`, does not
reference the new month sheet and does not contain the fixed insertion
marker — `),"Sim"` for the OR-chain and `"Pendente de pagamento"` for the
IFERROR chain — both extenders leave the formula unchanged and add no
term; the embedding is total, so no error is raised. -/
theorem c6_marker_missing_noop (f mes : String)
    (h0 : pyReplace f ";" "," = f)
    (h1 : pyStartsWith f "=" = true)
    (h2 : pyContains f mes = false)
    (h3 : pyContains f marcadorL = false)
    (h4 : pyContains f marcadorM = false) :
    extendFormulaL f mes = f ∧ extendFormulaM f mes = f := by
  constructor
  · simp only [extendFormulaL, h0, h1, h2, h3]
    simp
  · simp only [extendFormulaM, h0, h1, h2, h4]
    simp

/-- C6 witness at a concrete marker-free formula. -/
theorem c6_marker_missing_noop_witness :
    pyReplace "=N2/E2" ";" "," = "=N2/E2" ∧
    pyStartsWith "=N2/E2" "=" = true ∧
    pyContains "=N2/E2" "MAR.26" = false ∧
    pyContains "=N2/E2" marcadorL = false ∧
    pyContains "=N2/E2" marcadorM = false ∧
    (extendFormulaL "=N2/E2" "MAR.26" = "=N2/E2" ∧
     extendFormulaM "=N2/E2" "MAR.26" = "=N2/E2") :=
  ⟨by decide, by decide, by decide, by decide, by decide,
   c6_marker_missing_noop "=N2/E2" "MAR.26" (by decide) (by decide) (by decide)
     (by decide) (by decide)⟩

/-- C8: the unique-CCB list derived from the month sheet's contiguous
column-A block 5, 5, 3, 5, 3, 9 (rows 2-7) is exactly 5, 3, 9 — first
occurrence order, duplicates removed, not sorted — and MOMENTO B writes
exactly one column-Q row per unique value, in that order, at consecutive
rows from row 2. -/
theorem c8_unique_ccb_order :
    ccbsUnicos (colASegment colunaAC8 2 9) = [5, 3, 9] ∧
    (aplicarRegrasMomentoB (colASegment colunaAC8 2 9) 2).filter (fun w => w.2.1 = 17) =
      [(2, 17, Escrita.valor (some 5)),
       (3, 17, Escrita.valor (some 3)),
       (4, 17, Escrita.valor (some 9))] := by
  constructor
  · decide
  · decide

/-- C9: for every target-month label accepted by the parser, the
billing-cycle block computes its window by subtracting exactly 4 calendar
months from the first day of the target month (with year rollover, stated
as month-index arithmetic), taking day 23 of that lookback month as the
window start and day 20 of the following month as the window end. -/
theorem c9_ciclo_pmt_window (s : String) (ano mes : Nat)
    (h : parseTargetMonth s = some (ano, mes)) :
    ∃ aLB mLB aF mF,
      cicloPmtJanela s = some ((aLB, mLB, 23), (aF, mF, 20)) ∧
      mesIndex aLB mLB + 4 = mesIndex ano mes ∧
      mesIndex aF mF = mesIndex aLB mLB + 1 ∧
      1 ≤ mLB ∧ mLB ≤ 12 ∧ 1 ≤ aF ∧ 1 ≤ mF ∧ mF ≤ 12 := by
  have hAno : 2000 ≤ ano := by
    have hc := h
    unfold parseTargetMonth at hc
    split at hc
    · split at hc
      · rw [Option.some.injEq, Prod.mk.injEq] at hc
        omega
      · exact absurd hc (by simp)
    · exact absurd hc (by simp)
  have hwin : cicloPmtJanela s = some
      (((mesIndex ano mes - 4) / 12, (mesIndex ano mes - 4) % 12 + 1, 23),
       ((mesIndex ((mesIndex ano mes - 4) / 12) ((mesIndex ano mes - 4) % 12 + 1) + 1) / 12,
        (mesIndex ((mesIndex ano mes - 4) / 12) ((mesIndex ano mes - 4) % 12 + 1) + 1) % 12 + 1,
        20)) := by
    unfold cicloPmtJanela
    rw [h]
  refine ⟨_, _, _, _, hwin, ?_, ?_, ?_, ?_, ?_, ?_, ?_⟩ <;>
  · have hdm := Nat.div_add_mod (mesIndex ano mes - 4) 12
    have hdm2 := Nat.div_add_mod
      (mesIndex ((mesIndex ano mes - 4) / 12) ((mesIndex ano mes - 4) % 12 + 1) + 1) 12
    have hm : (mesIndex ano mes - 4) % 12 < 12 := Nat.mod_lt _ (by omega)
    have hm2 : (mesIndex ((mesIndex ano mes - 4) / 12) ((mesIndex ano mes - 4) % 12 + 1) + 1)
        % 12 < 12 := Nat.mod_lt _ (by omega)
    simp only [mesIndex] at *
    omega

/-- C9 witness at the label JAN.26: the lookback month is September 2025,
the window runs from 2025-09-23 to 2025-10-20. -/
theorem c9_ciclo_pmt_window_witness :
    parseTargetMonth "JAN.26" = some (2026, 1) ∧
    (∃ aLB mLB aF mF,
      cicloPmtJanela "JAN.26" = some ((aLB, mLB, 23), (aF, mF, 20)) ∧
      mesIndex aLB mLB + 4 = mesIndex 2026 1 ∧
      mesIndex aF mF = mesIndex aLB mLB + 1 ∧
      1 ≤ mLB ∧ mLB ≤ 12 ∧ 1 ≤ aF ∧ 1 ≤ mF ∧ mF ≤ 12) :=
  ⟨by decide, c9_ciclo_pmt_window "JAN.26" 2026 1 (by decide)⟩

/-- A decimal digit character is not an upper-case letter. -/
theorem digit_not_upper {c : Char} (h : isDigit09 c = true) : isUpperAZ c = false := by
  unfold isDigit09 at h
  unfold isUpperAZ
  rw [Bool.and_eq_true] at h
  have h9 : c ≤ '9' := of_decide_eq_true h.2
  have hA : ¬('A' ≤ c) := fun hc => absurd (le_trans hc h9) (by decide)
  simp [decide_eq_false hA]

/-- Every character of `digitChar09` is a decimal digit. -/
theorem digitChar09_digit (d : Nat) : isDigit09 (digitChar09 d) = true := by
  unfold digitChar09
  split <;> rfl

/-- Every character produced by the decimal renderer is a decimal digit. -/
theorem natToDigitsAux_digits :
    ∀ (fuel n : Nat) (acc : List Char), (∀ c ∈ acc, isDigit09 c = true) →
      ∀ c ∈ natToDigitsAux fuel n acc, isDigit09 c = true := by
  intro fuel
  induction fuel with
  | zero =>
    intro n acc hacc c hc
    simp only [natToDigitsAux] at hc
    rcases List.mem_cons.mp hc with rfl | hm
    · exact digitChar09_digit n
    · exact hacc c hm
  | succ fuel ih =>
    intro n acc hacc c hc
    simp only [natToDigitsAux] at hc
    by_cases hn : n < 10
    · rw [if_pos hn] at hc
      rcases List.mem_cons.mp hc with rfl | hm
      · exact digitChar09_digit n
      · exact hacc c hm
    · rw [if_neg hn] at hc
      refine ih (n / 10) _ ?_ c hc
      intro d hd
      rcases List.mem_cons.mp hd with rfl | hm
      · exact digitChar09_digit (n % 10)
      · exact hacc d hm

/-- The digits of a natural number are decimal digits. -/
theorem natToDigits_digits (n : Nat) : ∀ c ∈ natToDigits n, isDigit09 c = true :=
  natToDigitsAux_digits n n [] (by intro c hc; exact absurd hc (List.not_mem_nil c))

/-- The decimal rendering of a natural number is never empty. -/
theorem natToDigits_ne_nil (n : Nat) : natToDigits n ≠ [] := by
  unfold natToDigits
  have hgen : ∀ (fuel k : Nat) (acc : List Char), natToDigitsAux fuel k acc ≠ [] := by
    intro fuel
    induction fuel with
    | zero => intro k acc; simp [natToDigitsAux]
    | succ fuel ih =>
      intro k acc
      simp only [natToDigitsAux]
      by_cases hk : k < 10
      · rw [if_pos hk]; simp
      · rw [if_neg hk]; exact ih _ _
  exact hgen n n []

/-- A run of upper-case letters passes through the substitution unchanged
and leaves the machine in the after-letter state. -/
theorem subTokensGo_letters (n : Nat) :
    ∀ (L : List Char), (∀ c ∈ L, isUpperAZ c = true) →
    ∀ (st : Nat) (x : List Char),
      subTokensGo n st (L ++ x) = L ++ subTokensGo n (if L.isEmpty then st else 1) x := by
  intro L
  induction L with
  | nil => intro _ st x; simp
  | cons c L ih =>
    intro hL st x
    have hc : isUpperAZ c = true := hL c (List.mem_cons_self c L)
    have hL' : ∀ d ∈ L, isUpperAZ d = true := fun d hd => hL d (List.mem_cons_of_mem _ hd)
    simp only [List.cons_append, subTokensGo, hc, if_true, List.append_eq]
    rw [ih hL' 1 x]
    simp

/-- In the skipping state the remaining digits of a replaced run are
dropped. -/
theorem subTokensGo_skip_digits (n : Nat) :
    ∀ (D : List Char), (∀ c ∈ D, isDigit09 c = true) →
    ∀ (x : List Char), subTokensGo n 2 (D ++ x) = subTokensGo n 2 x := by
  intro D
  induction D with
  | nil => intro _ x; rfl
  | cons d D ih =>
    intro hD x
    have hd : isDigit09 d = true := hD d (List.mem_cons_self d D)
    have hnu : isUpperAZ d = false := digit_not_upper hd
    have hD' : ∀ c ∈ D, isDigit09 c = true := fun c hc => hD c (List.mem_cons_of_mem _ hc)
    simp [subTokensGo, hnu, hd, ih hD' x]

/-- Main substitution lemma: on a well-formed token rendering, the
substitution replaces every digit run with the decimal digits of `n` and
leaves every letter run unchanged, from any machine state. -/
theorem subTokensGo_render (n : Nat) :
    ∀ (ts : List (List Char × List Char)), tokensWF ts →
    ∀ (st : Nat), subTokensGo n st (tokensRender ts) =
      tokensRender (ts.map fun t => (t.1, natToDigits n)) := by
  intro ts
  induction ts with
  | nil => intro _ st; rfl
  | cons t ts ih =>
    intro hwf st
    obtain ⟨hL1, hL2, hD1, hD2⟩ := hwf t (List.mem_cons_self t ts)
    have hwf' : tokensWF ts := fun u hu => hwf u (List.mem_cons_of_mem _ hu)
    obtain ⟨L, D⟩ := t
    obtain ⟨d, D', rfl⟩ : ∃ d D', D = d :: D' := by
      cases D with
      | nil => exact absurd rfl hD1
      | cons a l => exact ⟨a, l, rfl⟩
    have hd : isDigit09 d = true := hD2 d (List.mem_cons_self d D')
    have hnu : isUpperAZ d = false := digit_not_upper hd
    have hD2' : ∀ c ∈ D', isDigit09 c = true := fun c hc => hD2 c (List.mem_cons_of_mem _ hc)
    have hLne : L.isEmpty = false := by
      cases L with
      | nil => exact absurd rfl hL1
      | cons a l => rfl
    simp only [tokensRender, List.map_cons]
    rw [subTokensGo_letters n L hL2 st (d :: D' ++ tokensRender ts), hLne]
    simp only [Bool.false_eq_true, if_false]
    have hstep : subTokensGo n 1 ((d :: D') ++ tokensRender ts)
        = natToDigits n ++ subTokensGo n 2 (D' ++ tokensRender ts) := by
      simp [subTokensGo, hnu, hd]
    rw [hstep, subTokensGo_skip_digits n D' hD2' (tokensRender ts), ih hwf' 2]

/-- Replacing the digit runs of a well-formed token list keeps it
well-formed. -/
theorem tokensWF_map_digits (n : Nat) {ts : List (List Char × List Char)}
    (h : tokensWF ts) : tokensWF (ts.map fun t => (t.1, natToDigits n)) := by
  intro u hu
  rw [List.mem_map] at hu
  obtain ⟨t, ht, rfl⟩ := hu
  obtain ⟨h1, h2, _, _⟩ := h t ht
  exact ⟨h1, h2, natToDigits_ne_nil n, natToDigits_digits n⟩

/-- C7: for every formula composed of letters-then-digits cell-reference
tokens, `atualizar_formula_linha` replaces every digit run that follows a
letter run with the new row number and leaves all letter runs unchanged;
and applying it twice with different rows collapses to the last
application. -/
theorem c7_row_token_substitution (ts : List (List Char × List Char)) (h : tokensWF ts)
    (m n : Nat) :
    atualizarFormulaLinha ⟨tokensRender ts⟩ n =
      ⟨tokensRender (ts.map fun t => (t.1, natToDigits n))⟩ ∧
    atualizarFormulaLinha (atualizarFormulaLinha ⟨tokensRender ts⟩ m) n =
      atualizarFormulaLinha ⟨tokensRender ts⟩ n := by
  have hmain : ∀ (k : Nat), atualizarFormulaLinha ⟨tokensRender ts⟩ k =
      ⟨tokensRender (ts.map fun t => (t.1, natToDigits k))⟩ := by
    intro k
    unfold atualizarFormulaLinha
    exact congrArg String.mk (subTokensGo_render k ts h 0)
  refine ⟨hmain n, ?_⟩
  rw [hmain m, hmain n]
  unfold atualizarFormulaLinha
  apply congrArg String.mk
  rw [show String.toList ⟨tokensRender (ts.map fun t => (t.1, natToDigits m))⟩ =
        tokensRender (ts.map fun t => (t.1, natToDigits m)) from rfl]
  rw [subTokensGo_render n _ (tokensWF_map_digits m h) 0, List.map_map]
  congr 1

/-- C7 witness at the concrete token formula `A2BC34`. -/
theorem c7_row_token_substitution_witness :
    tokensWF tokensW ∧
    (atualizarFormulaLinha ⟨tokensRender tokensW⟩ 7 =
       ⟨tokensRender (tokensW.map fun t => (t.1, natToDigits 7))⟩ ∧
     atualizarFormulaLinha (atualizarFormulaLinha ⟨tokensRender tokensW⟩ 5) 7 =
       atualizarFormulaLinha ⟨tokensRender tokensW⟩ 7) :=
  ⟨by decide, c7_row_token_substitution tokensW (by decide) 5 7⟩

/-- The sheet-name effect of ETAPA 3 leaves exactly one sheet with the
target name (sheet names are unique in an openpyxl workbook). -/
theorem cloneTemplateStep_count (sheets : List String) (target : String)
    (h : sheets.Nodup) : (cloneTemplateStep sheets target).count target = 1 := by
  unfold cloneTemplateStep
  rw [List.count_append]
  by_cases hm : target ∈ sheets
  · rw [if_pos hm, List.count_erase_self]
    have h1 : sheets.count target = 1 := by
      have hle := (List.nodup_iff_count_le_one.mp h) target
      have hpos := List.count_pos_iff.mpr hm
      omega
    rw [h1]
    simp [List.count_singleton]
  · rw [if_neg hm, List.count_eq_zero.mpr hm]
    simp [List.count_singleton]

/-- Characterisation of the linear header scan. -/
theorem encontrarColunaAux_some_iff (hdr : Nat → Option String) (nome : String) :
    ∀ (fuel c r : Nat),
      encontrarColunaAux hdr nome c fuel = some r ↔
        (c ≤ r ∧ r < c + fuel ∧ hdr r = some nome ∧
         ∀ j, c ≤ j → j < r → hdr j ≠ some nome) := by
  intro fuel
  induction fuel with
  | zero =>
    intro c r
    constructor
    · intro h; exact absurd h (by simp [encontrarColunaAux])
    · intro ⟨h1, h2, _, _⟩; omega
  | succ fuel ih =>
    intro c r
    simp only [encontrarColunaAux]
    by_cases h : hdr c = some nome
    · rw [if_pos h]
      constructor
      · intro he
        rw [Option.some.injEq] at he
        subst he
        exact ⟨le_refl c, by omega, h, fun j h1 h2 => absurd h1 (by omega)⟩
      · intro ⟨h1, h2, h3, h4⟩
        by_cases hrc : r = c
        · rw [hrc]
        · exact absurd h (h4 c (le_refl c) (by omega))
    · rw [if_neg h, ih (c + 1) r]
      constructor
      · intro ⟨h1, h2, h3, h4⟩
        refine ⟨by omega, by omega, h3, ?_⟩
        intro j hj1 hj2
        by_cases hjc : j = c
        · rw [hjc]; exact h
        · exact h4 j (by omega) hj2
      · intro ⟨h1, h2, h3, h4⟩
        have hrc : r ≠ c := fun hrc => absurd h3 (hrc ▸ h)
        exact ⟨by omega, by omega, h3, fun j hj1 hj2 => h4 j (by omega) hj2⟩

/-- After inserting a fresh column at `pos ≤ d` and heading it with a
non-DATA label, the first DATA header moves from column `d` to `d + 1`. -/
theorem encontrarColuna_after_insert (ws : PlanilhaCols) (target : String) (d pos : Nat)
    (hD : encontrarColunaPorHeader ws "DATA" = some d)
    (hpos1 : 1 ≤ pos) (hpos2 : pos ≤ d) (hTD : target ≠ "DATA") :
    encontrarColunaPorHeader (setHdr (insertCols ws pos) pos target) "DATA" = some (d + 1) := by
  unfold encontrarColunaPorHeader at hD ⊢
  rw [encontrarColunaAux_some_iff] at hD
  obtain ⟨h1, h2, h3, h4⟩ := hD
  rw [encontrarColunaAux_some_iff]
  refine ⟨by omega, ?_, ?_, ?_⟩
  · show d + 1 < 1 + (ws.maxCol + 1)
    omega
  · show (if d + 1 = pos then some target else
          if d + 1 < pos then ws.hdr (d + 1) else
          if d + 1 = pos then none else ws.hdr (d + 1 - 1)) = some "DATA"
    rw [if_neg (by omega), if_neg (by omega), if_neg (by omega)]
    rw [Nat.add_sub_cancel]
    exact h3
  · intro j hj1 hj2
    by_cases hjp : j = pos
    · show (if j = pos then some target else
            if j < pos then ws.hdr j else
            if j = pos then none else ws.hdr (j - 1)) ≠ some "DATA"
      rw [if_pos hjp]
      intro hcon
      rw [Option.some.injEq] at hcon
      exact hTD hcon
    · by_cases hjlt : j < pos
      · show (if j = pos then some target else
              if j < pos then ws.hdr j else
              if j = pos then none else ws.hdr (j - 1)) ≠ some "DATA"
        rw [if_neg hjp, if_pos hjlt]
        exact h4 j hj1 (by omega)
      · show (if j = pos then some target else
              if j < pos then ws.hdr j else
              if j = pos then none else ws.hdr (j - 1)) ≠ some "DATA"
        rw [if_neg hjp, if_neg hjlt, if_neg hjp]
        exact h4 (j - 1) (by omega) (by omega)

/-- Counting a name among the month-column names is counting the header
columns that carry it. -/
theorem count_month_names (hdr : Nat → Option String) (a : String) :
    ∀ (l : List Nat),
      ((l.filterMap (fun c => (hdr c).map (fun h => (h, c)))).map Prod.fst).count a =
        l.countP (fun c => hdr c = some a) := by
  intro l
  induction l with
  | nil => rfl
  | cons c l ih =>
    rw [List.countP_cons]
    cases hc : hdr c with
    | none =>
      simp only [List.filterMap_cons, hc, Option.map_none']
      rw [ih]
      simp
    | some h =>
      simp only [List.filterMap_cons, hc, Option.map_some', List.map_cons, List.count_cons]
      rw [ih]
      by_cases hha : h = a <;> simp [hha]

/-- Counting a fresh label over the header row after a column insertion:
one more than over the original header row. -/
theorem countP_hdr_shift (hdrOld hdrNew : Nat → Option String) (target : String) (pos : Nat)
    (hlt : ∀ c, c < pos → hdrNew c = hdrOld c)
    (heq : hdrNew pos = some target)
    (hgt : ∀ c, pos < c → hdrNew c = hdrOld (c - 1)) :
    ∀ (n s : Nat), s ≤ pos → pos < s + n →
      (List.range' s n).countP (fun c => hdrNew c = some target) =
        (List.range' s (n - 1)).countP (fun c => hdrOld c = some target) + 1 := by
  intro n
  induction n with
  | zero => intro s h1 h2; omega
  | succ n ih =>
    intro s h1 h2
    rw [List.range'_succ s n 1, List.countP_cons]
    by_cases hsp : s = pos
    · subst hsp
      have hshift : (List.range' (s + 1) n).countP (fun c => hdrNew c = some target) =
          (List.range' s n).countP (fun c => hdrOld c = some target) := by
        have hmap : List.range' (s + 1) n = (List.range' s n).map (fun x => 1 + x) := by
          rw [List.map_add_range']
          congr 1
          omega
        rw [hmap, List.countP_map]
        apply List.countP_congr
        intro x hx
        rw [List.mem_range'_1] at hx
        have : hdrNew (1 + x) = hdrOld x := by
          rw [hgt (1 + x) (by omega)]
          congr 1
          omega
        simp [Function.comp, this]
      rw [hshift, heq]
      simp
    · have hslt : s < pos := by omega
      have hn1 : 1 ≤ n := by omega
      have hrhs : List.range' s (n + 1 - 1) = s :: List.range' (s + 1) (n - 1) := by
        have he : n + 1 - 1 = (n - 1) + 1 := by omega
        rw [he, List.range'_succ]
      rw [hrhs, List.countP_cons, ih (s + 1) (by omega) (by omega), hlt s hslt]
      ring

/-- Inserting a label that is absent from the existing month columns
yields exactly one month column carrying it. -/
theorem inserirColunaMes_fresh_count (ws : PlanilhaCols) (target : String) (d : Nat)
    (hD : encontrarColunaPorHeader ws "DATA" = some d)
    (h17 : 17 ≤ d)
    (hT : target ∉ (encontrarColunasMeses ws).map Prod.fst)
    (hTD : target ≠ "DATA") :
    ((encontrarColunasMeses (inserirColunaMes ws target (encontrarColunasMeses ws)).1).map
      Prod.fst).count target = 1 := by
  have hcols : encontrarColunasMeses ws =
      (List.range' 17 (d - 17)).filterMap (fun c => (ws.hdr c).map (fun h => (h, c))) := by
    unfold encontrarColunasMeses
    rw [hD]
  obtain ⟨pos, hposN, hpos1, hpos2⟩ :
      ∃ pos, (inserirColunaMes ws target (encontrarColunasMeses ws)).1 =
        setHdr (insertCols ws pos) pos target ∧ 17 ≤ pos ∧ pos ≤ d := by
    cases hlast : (encontrarColunasMeses ws).getLast? with
    | none =>
      refine ⟨17, ?_, le_refl _, h17⟩
      unfold inserirColunaMes
      rw [hlast]
    | some ult =>
      have hmem : ult ∈ encontrarColunasMeses ws := by
        obtain ⟨ys, hys⟩ := List.getLast?_eq_some_iff.mp hlast
        rw [hys]
        exact List.mem_append_right ys (List.mem_cons_self ult [])
      rw [hcols] at hmem
      obtain ⟨c, hcmem, hfc⟩ := List.mem_filterMap.mp hmem
      rw [List.mem_range'_1] at hcmem
      have hc2 : ult.2 = c := by
        cases hh : ws.hdr c with
        | none => rw [hh] at hfc; exact absurd hfc (by simp)
        | some h =>
          rw [hh, Option.map_some', Option.some.injEq] at hfc
          rw [← hfc]
      refine ⟨ult.2 + 1, ?_, by omega, by omega⟩
      unfold inserirColunaMes
      rw [hlast]
  rw [hposN]
  have hD2 := encontrarColuna_after_insert ws target d pos hD (by omega) hpos2 hTD
  have hcols2 : encontrarColunasMeses (setHdr (insertCols ws pos) pos target) =
      (List.range' 17 (d + 1 - 17)).filterMap
        (fun c => ((setHdr (insertCols ws pos) pos target).hdr c).map (fun h => (h, c))) := by
    unfold encontrarColunasMeses
    rw [hD2]
  rw [hcols2, count_month_names]
  have hhdrlt : ∀ c, c < pos → (setHdr (insertCols ws pos) pos target).hdr c = ws.hdr c := by
    intro c hc
    show (if c = pos then some target else
          if c < pos then ws.hdr c else if c = pos then none else ws.hdr (c - 1)) = ws.hdr c
    rw [if_neg (by omega), if_pos hc]
  have hhdreq : (setHdr (insertCols ws pos) pos target).hdr pos = some target := by
    show (if pos = pos then some target else _) = some target
    rw [if_pos rfl]
  have hhdrgt : ∀ c, pos < c →
      (setHdr (insertCols ws pos) pos target).hdr c = ws.hdr (c - 1) := by
    intro c hc
    show (if c = pos then some target else
          if c < pos then ws.hdr c else if c = pos then none else ws.hdr (c - 1)) =
        ws.hdr (c - 1)
    rw [if_neg (by omega), if_neg (by omega), if_neg (by omega)]
  rw [countP_hdr_shift ws.hdr _ target pos hhdrlt hhdreq hhdrgt (d + 1 - 17) 17
      (by omega) (by omega)]
  have hz : (List.range' 17 (d + 1 - 17 - 1)).countP (fun c => ws.hdr c = some target) = 0 := by
    have he : d + 1 - 17 - 1 = d - 17 := by omega
    rw [he, ← count_month_names ws.hdr target (List.range' 17 (d - 17)), ← hcols]
    exact List.count_eq_zero.mpr hT
  rw [hz]

/-- C1 counterexample: on a BASE header row that already carries a month
column headed `FEV.26` (the state left by a previous run), the
month-column inserter creates a second column with the same header — it
performs no duplicate-label check — so the BASE ends with two month
columns headed `FEV.26`, refuting the claim that the inserter does not
create a duplicate column for an already-present label. -/
theorem c1_counterexample :
    ((encontrarColunasMeses
        (inserirColunaMes wsBaseDup "FEV.26" (encontrarColunasMeses wsBaseDup)).1).map
      Prod.fst).count "FEV.26" = 2 := by
  decide

/-- C1 (amended): running the pipeline a second time with the same target
month against the same original BASE input leaves exactly one month sheet
named `target_month` — the cloner deletes a pre-existing sheet of that
name before recreating it — and exactly one month column headed
`target_month`; the latter holds only because the original input carries
no month column with that label (each run reloads the original bytes),
not because of any duplicate check in the inserter, which always inserts
a fresh column. -/
theorem c1_rerun_amended (sheets : List String) (target : String) (hnd : sheets.Nodup)
    (ws : PlanilhaCols) (d : Nat)
    (hD : encontrarColunaPorHeader ws "DATA" = some d)
    (h17 : 17 ≤ d)
    (hT : target ∉ (encontrarColunasMeses ws).map Prod.fst)
    (hTD : target ≠ "DATA") :
    (cloneTemplateStep sheets target).count target = 1 ∧
    ((encontrarColunasMeses (inserirColunaMes ws target (encontrarColunasMeses ws)).1).map
      Prod.fst).count target = 1 :=
  ⟨cloneTemplateStep_count sheets target hnd,
   inserirColunaMes_fresh_count ws target d hD h17 hT hTD⟩

/-- C1 witness: a workbook with the template and BASE sheets, and a BASE
header row with one month column `JAN.26` and the DATA column at 18,
processed for target month `FEV.26`. -/
theorem c1_rerun_amended_witness :
    ["BASE", "INADIMPLENTES", "JAN.26"].Nodup ∧
    encontrarColunaPorHeader wsBaseSemDup "DATA" = some 18 ∧
    (17 : Nat) ≤ 18 ∧
    "FEV.26" ∉ (encontrarColunasMeses wsBaseSemDup).map Prod.fst ∧
    "FEV.26" ≠ "DATA" ∧
    ((cloneTemplateStep ["BASE", "INADIMPLENTES", "JAN.26"] "FEV.26").count "FEV.26" = 1 ∧
     ((encontrarColunasMeses
         (inserirColunaMes wsBaseSemDup "FEV.26" (encontrarColunasMeses wsBaseSemDup)).1).map
       Prod.fst).count "FEV.26" = 1) :=
  ⟨by decide, by decide, by decide, by decide, by decide,
   c1_rerun_amended ["BASE", "INADIMPLENTES", "JAN.26"] "FEV.26" (by decide)
     wsBaseSemDup 18 (by decide) (by decide) (by decide) (by decide)⟩
